import Mathlib

/-!
# Verification of the megascans-rendering data-preparation scripts

A shallow embedding, over the real numbers, of the numeric helpers and
filesystem-level procedures of the `megascans-rendering` repository
(`render_dataset.py`, `utils.py`, `prepare_for_training.py`,
`filter_models.py`, `export_gltf.py`), together with theorems settling the
frozen claims about them.

Python/numpy scalar floats are embedded as `ℝ`; numpy arrays become Lean
lists; fallible code (Python `assert`) becomes `Except String`.
-/

open Real

namespace Megascans

/-! ## numpy primitives -/

/-- `np.arctan2 y x`: the angle of the point `(x, y)`, in `(-π, π]`.  This is
exactly the argument of the complex number `x + y·i`. -/
noncomputable def arctan2 (y x : ℝ) : ℝ := Complex.arg ⟨x, y⟩

/-- `np.linspace a b n`: `n` evenly spaced values from `a` to `b` inclusive
(`[a]` when `n = 1`). -/
noncomputable def np_linspace (a b : ℝ) (n : ℕ) : List ℝ :=
  (List.range n).map fun k : ℕ =>
    if n ≤ 1 then a else a + (k : ℝ) * (b - a) / ((n : ℝ) - 1)

/-- Python `int()` applied to a float: truncation toward zero. -/
noncomputable def pyInt (x : ℝ) : ℤ := if x < 0 then ⌈x⌉ else ⌊x⌋

/-- `np.clip x lo hi`. -/
noncomputable def np_clip (x lo hi : ℝ) : ℝ := max lo (min x hi)

lemma arctan2_cos_sin {θ : ℝ} (h : θ ∈ Set.Ioc (-π) π) :
    arctan2 (Real.sin θ) (Real.cos θ) = θ := by
  have hmk : (⟨Real.cos θ, Real.sin θ⟩ : ℂ) = Complex.cos θ + Complex.sin θ * Complex.I := by
    apply Complex.ext <;>
      simp [Complex.cos_ofReal_re, Complex.sin_ofReal_re, Complex.add_im, Complex.mul_im]
  unfold arctan2
  rw [hmk]
  exact_mod_cast Complex.arg_cos_add_sin_mul_I h

lemma arctan2_zero_one : arctan2 0 1 = 0 := by
  have : (⟨(1 : ℝ), (0 : ℝ)⟩ : ℂ) = 1 := by
    apply Complex.ext <;> simp
  unfold arctan2
  rw [this, Complex.arg_one]

/-! ## `utils.get_euler_angles`

```python
def get_euler_angles(T: np.ndarray) -> Tuple[float, float, float]:
    yaw = np.arctan2(T[1, 0], T[0, 0]).item()
    pitch = np.arctan2(T[2, 1], T[2, 2]).item()
    if pitch < 0:
        assert pitch < 1e-8 or (np.pi + pitch) < 1e-8, f"Cannot handle pitch value: {pitch}"
        pitch = abs(pitch)
    roll = np.arctan2(-T[2, 0], np.sqrt(T[2, 1] ** 2 + T[2, 2] ** 2)).item()
    return yaw, pitch, roll
```
-/

open Classical in
/-- `utils.get_euler_angles`, with the failing `assert` embedded as an
`Except.error`.  `T i j` is row `i`, column `j` of the (rotation block of the)
transform matrix. -/
noncomputable def get_euler_angles (T : Matrix (Fin 3) (Fin 3) ℝ) :
    Except String (ℝ × ℝ × ℝ) :=
  let yaw := arctan2 (T 1 0) (T 0 0)
  let pitch := arctan2 (T 2 1) (T 2 2)
  let roll := arctan2 (-(T 2 0)) (Real.sqrt ((T 2 1) ^ 2 + (T 2 2) ^ 2))
  if pitch < 0 then
    if pitch < 1e-8 ∨ Real.pi + pitch < 1e-8 then .ok (yaw, |pitch|, roll)
    else .error "Cannot handle pitch value"
  else .ok (yaw, pitch, roll)

/-- **C4.** `get_euler_angles` never reaches the "Cannot handle pitch value"
error branch: whenever the raw `arctan2(T[2,1], T[2,2])` is negative, the
first disjunct `pitch < 1e-8` of the guarding assertion already holds, so for
every input matrix the function succeeds and returns the absolute value of the
raw pitch — in particular the returned pitch is always nonnegative. -/
theorem claim_C4_pitch_sign_correction (T : Matrix (Fin 3) (Fin 3) ℝ) :
    get_euler_angles T =
      .ok (arctan2 (T 1 0) (T 0 0), |arctan2 (T 2 1) (T 2 2)|,
           arctan2 (-(T 2 0)) (Real.sqrt ((T 2 1) ^ 2 + (T 2 2) ^ 2)))
    ∧ 0 ≤ |arctan2 (T 2 1) (T 2 2)| := by
  refine ⟨?_, abs_nonneg _⟩
  unfold get_euler_angles
  by_cases hneg : arctan2 (T 2 1) (T 2 2) < 0
  · have hguard : arctan2 (T 2 1) (T 2 2) < 1e-8 ∨ Real.pi + arctan2 (T 2 1) (T 2 2) < 1e-8 := by
      left; norm_num at *; linarith
    simp [hneg, hguard]
  · simp [hneg, abs_of_nonneg (not_lt.mp hneg)]

/-! ## `render_dataset.generate_camera_angles`, random branch

```python
if random:
    yaw = np.random.rand(num_views) * 2 * np.pi - np.pi  # [num_views]
    pitch = np.arccos(1 - 2 * np.random.rand(num_views)) # [num_views]
    roll = np.zeros(pitch.shape) # [num_views]
...
angles = np.stack([yaw, pitch, roll], axis=1) # [num_views, 3]
assert angles.shape == (num_views, 3)
```

The two `np.random.rand` streams (uniform on `[0, 1)`) are abstracted as
functions `u v : ℕ → ℝ`; row `i` of the result uses draws `u i` and `v i`.
-/

noncomputable def generate_camera_angles_random (num_views : ℕ) (u v : ℕ → ℝ) :
    List (ℝ × ℝ × ℝ) :=
  (List.range num_views).map fun i =>
    (u i * 2 * Real.pi - Real.pi, Real.arccos (1 - 2 * v i), 0)

/-- **C1.** For every positive `num_views`, the random branch of
`generate_camera_angles` returns `num_views` rows of `(yaw, pitch, roll)`
with `yaw ∈ [-π, π]`, `pitch ∈ [0, π]`, and `roll = 0`, provided the random
draws lie in `[0, 1)` as `np.random.rand` guarantees. -/
theorem claim_C1_random_angle_bounds (num_views : ℕ) (u v : ℕ → ℝ)
    (hpos : 0 < num_views) (hu : ∀ i, 0 ≤ u i ∧ u i < 1) :
    (generate_camera_angles_random num_views u v).length = num_views ∧
    ∀ a ∈ generate_camera_angles_random num_views u v,
      (-Real.pi ≤ a.1 ∧ a.1 ≤ Real.pi) ∧
      (0 ≤ a.2.1 ∧ a.2.1 ≤ Real.pi) ∧ a.2.2 = 0 := by
  constructor
  · simp [generate_camera_angles_random]
  · intro a ha
    simp only [generate_camera_angles_random, List.mem_map, List.mem_range] at ha
    obtain ⟨i, -, rfl⟩ := ha
    obtain ⟨hu0, hu1⟩ := hu i
    have hπ := Real.pi_pos
    refine ⟨⟨?_, ?_⟩, ⟨Real.arccos_nonneg _, Real.arccos_le_pi _⟩, rfl⟩
    · simp only
      nlinarith
    · simp only
      nlinarith

/-- Witness for C1 at `num_views = 2` with the constant draws `u = 1/2`,
`v = 0`. -/
theorem claim_C1_witness :
    (0 < 2 ∧ ∀ i : ℕ, 0 ≤ (1 / 2 : ℝ) ∧ (1 / 2 : ℝ) < 1) ∧
    ((generate_camera_angles_random 2 (fun _ => 1 / 2) fun _ => 0).length = 2 ∧
     ∀ a ∈ generate_camera_angles_random 2 (fun _ => 1 / 2) fun _ => 0,
       (-Real.pi ≤ a.1 ∧ a.1 ≤ Real.pi) ∧
       (0 ≤ a.2.1 ∧ a.2.1 ≤ Real.pi) ∧ a.2.2 = 0) :=
  ⟨⟨by norm_num, fun _ => by norm_num⟩,
   claim_C1_random_angle_bounds 2 (fun _ => 1 / 2) (fun _ => 0) (by norm_num)
     fun _ => by norm_num⟩

/-! ## `render_dataset.generate_camera_angles`, deterministic branch

```python
else:
    assert num_views == 129, "Can only render 129 views deterministically..."
    num_steps = 15
    pitch = np.linspace(1e-6, np.pi - 1e-6, num=num_steps, dtype=np.float32)
    yaw = [np.linspace(0, 2 * np.pi, num=max(int(np.sin(p) * num_steps), 1), dtype=np.float32) for p in pitch]
    pitch = np.array([p for i, p in enumerate(pitch) for _ in yaw[i]])
    yaw = np.array([y for ys in yaw for y in ys])
    pitch = np.clip(pitch, 1e-8, np.pi - 1e-8)
    roll = np.zeros(yaw.shape, dtype=np.float32)
angles = np.stack([yaw, pitch, roll], axis=1)
assert angles.shape == (num_views, 3), f"Wrong shape: {angles.shape}"
```
-/

/-- Entry `k` of `np.linspace 1e-6 (π - 1e-6) 15`, the deterministic pitch
grid. -/
noncomputable def pitchAt (k : ℕ) : ℝ :=
  1e-6 + k * ((Real.pi - 1e-6) - 1e-6) / 14

/-- `max(int(np.sin(p) * 15), 1)`: the number of yaw samples taken at
pitch `p` in the deterministic grid. -/
noncomputable def yaw_count (p : ℝ) : ℤ := max (pyInt (Real.sin p * 15)) 1

noncomputable def generate_camera_angles_det (num_views : ℕ) :
    Except String (List (ℝ × ℝ × ℝ)) :=
  if num_views ≠ 129 then
    .error "Can only render 129 views deterministically... Adjust the number of steps manually"
  else
    let pitches := np_linspace 1e-6 (Real.pi - 1e-6) 15
    let rows := (pitches.map fun p =>
      (np_linspace 0 (2 * Real.pi) (yaw_count p).toNat).map fun y =>
        (y, np_clip p 1e-8 (Real.pi - 1e-8), (0 : ℝ))).flatten
    if rows.length ≠ num_views then .error "Wrong shape" else .ok rows

lemma np_linspace_length (a b : ℝ) (n : ℕ) : (np_linspace a b n).length = n := by
  rw [np_linspace, List.length_map, List.length_range]

lemma det_pitches_eq :
    np_linspace 1e-6 (Real.pi - 1e-6) 15 = (List.range 15).map pitchAt := by
  unfold np_linspace pitchAt
  refine List.map_congr_left fun k _hk => ?_
  norm_num

/-! ### Numeric bounds on `sin` at the grid points

`Real.sin_bound` gives a cubic Taylor approximation valid on `[-1, 1]`;
grid pitches go up to nearly `π`, so each pitch `p` is analyzed as
`p = 3·(p/3)` through the triple-angle identity, with the Taylor bound
applied at `p/3 ≤ 1/2`. -/

lemma sin_interval_bounds {q a b : ℝ} (h0 : 0 ≤ a) (ha : a ≤ q) (hb : q ≤ b)
    (hb1 : b ≤ 1) :
    a - a ^ 3 / 6 - b ^ 4 * (5 / 96) ≤ Real.sin q ∧
    Real.sin q ≤ b - b ^ 3 / 6 + b ^ 4 * (5 / 96) := by
  have hq0 : 0 ≤ q := le_trans h0 ha
  have hq1 : q ≤ 1 := le_trans hb hb1
  have ha1 : a ≤ 1 := le_trans ha hq1
  have hb0 : 0 ≤ b := le_trans hq0 hb
  have habs : |q| ≤ 1 := abs_le.mpr ⟨by linarith, hq1⟩
  have hbd := Real.sin_bound habs
  rw [abs_of_nonneg hq0] at hbd
  obtain ⟨hbd1, hbd2⟩ := abs_le.mp hbd
  have hq4 : q ^ 4 ≤ b ^ 4 := pow_le_pow_left₀ hq0 hb 4
  have hqsq : q ^ 2 ≤ 1 := by
    nlinarith [mul_nonneg (sub_nonneg.mpr hq1) (by linarith : (0 : ℝ) ≤ 1 + q)]
  have hasq : a ^ 2 ≤ 1 := by
    nlinarith [mul_nonneg (sub_nonneg.mpr ha1) (by linarith : (0 : ℝ) ≤ 1 + a)]
  have hbsq : b ^ 2 ≤ 1 := by
    nlinarith [mul_nonneg (sub_nonneg.mpr hb1) (by linarith : (0 : ℝ) ≤ 1 + b)]
  have hqa : q * a ≤ 1 := by nlinarith [mul_nonneg hq0 h0]
  have hbq : b * q ≤ 1 := by nlinarith [mul_nonneg hb0 hq0]
  have key1 : 0 ≤ (q - a) * (6 - (q ^ 2 + q * a + a ^ 2)) :=
    mul_nonneg (sub_nonneg.mpr ha) (by linarith)
  have key2 : 0 ≤ (b - q) * (6 - (b ^ 2 + b * q + q ^ 2)) :=
    mul_nonneg (sub_nonneg.mpr hb) (by linarith)
  constructor <;> nlinarith [key1, key2]

lemma sin_triple_bounds {q lo hi : ℝ} (hlo : lo ≤ Real.sin q)
    (hhi : Real.sin q ≤ hi) (h0 : 0 ≤ lo) (hhalf : hi ≤ 1 / 2) :
    3 * lo - 4 * lo ^ 3 ≤ Real.sin (3 * q) ∧
    Real.sin (3 * q) ≤ 3 * hi - 4 * hi ^ 3 := by
  rw [Real.sin_three_mul]
  have hs0 : 0 ≤ Real.sin q := le_trans h0 hlo
  have hs2 : Real.sin q ≤ 1 / 2 := le_trans hhi hhalf
  constructor
  · nlinarith [mul_nonneg (sub_nonneg.mpr hlo)
      (show (0 : ℝ) ≤ 3 - 4 * (Real.sin q ^ 2 + Real.sin q * lo + lo ^ 2) by nlinarith)]
  · nlinarith [mul_nonneg (sub_nonneg.mpr hhi)
      (show (0 : ℝ) ≤ 3 - 4 * (hi ^ 2 + hi * Real.sin q + Real.sin q ^ 2) by nlinarith)]

lemma yaw_count_of_floor_bounds {p : ℝ} {k : ℕ} (hk : 1 ≤ k)
    (h1 : (k : ℝ) ≤ Real.sin p * 15) (h2 : Real.sin p * 15 < (k : ℝ) + 1) :
    yaw_count p = k := by
  have hpos : ¬ Real.sin p * 15 < 0 := by
    push_neg
    have : (1 : ℝ) ≤ (k : ℝ) := by exact_mod_cast hk
    linarith
  unfold yaw_count pyInt
  rw [if_neg hpos]
  have hfloor : ⌊Real.sin p * 15⌋ = (k : ℤ) := by
    rw [Int.floor_eq_iff]
    constructor
    · exact_mod_cast h1
    · push_cast
      exact h2
  rw [hfloor]
  omega

/-- Master lemma: the yaw count at `pitchAt k`, computed through the
triple-angle identity with rational interval endpoints `a ≤ pitchAt k / 3 ≤ b`
and rational bounds `lo ≤ sin (pitchAt k / 3) ≤ hi`. -/
lemma yaw_count_triple (k c : ℕ) (a b lo hi : ℝ) (hc : 1 ≤ c)
    (hqa : a ≤ pitchAt k / 3) (hqb : pitchAt k / 3 ≤ b) (h0a : 0 ≤ a)
    (hb1 : b ≤ 1)
    (hlo : lo ≤ a - a ^ 3 / 6 - b ^ 4 * (5 / 96))
    (hhi : b - b ^ 3 / 6 + b ^ 4 * (5 / 96) ≤ hi)
    (h0lo : 0 ≤ lo) (hhalf : hi ≤ 1 / 2)
    (hcl : (c : ℝ) ≤ (3 * lo - 4 * lo ^ 3) * 15)
    (hcu : (3 * hi - 4 * hi ^ 3) * 15 < (c : ℝ) + 1) :
    yaw_count (pitchAt k) = c := by
  obtain ⟨hs1, hs2⟩ := sin_interval_bounds h0a hqa hqb hb1
  obtain ⟨ht1, ht2⟩ := sin_triple_bounds (le_trans hlo hs1) (le_trans hs2 hhi) h0lo hhalf
  have hq : (3 : ℝ) * (pitchAt k / 3) = pitchAt k := by ring
  rw [hq] at ht1 ht2
  exact yaw_count_of_floor_bounds hc (by nlinarith) (by nlinarith)

lemma yaw_count_pitch0 : yaw_count (pitchAt 0) = 1 := by
  have h0 : pitchAt 0 = 1e-6 := by unfold pitchAt; norm_num
  have hπ : (3 : ℝ) < Real.pi := Real.pi_gt_three
  have hs_pos : 0 < Real.sin (pitchAt 0) := by
    rw [h0]
    exact Real.sin_pos_of_pos_of_lt_pi (by norm_num) (by norm_num; linarith)
  have hs_lt : Real.sin (pitchAt 0) < 1e-6 := by
    rw [h0]
    exact Real.sin_lt (by norm_num)
  unfold yaw_count pyInt
  rw [if_neg (by push_neg; nlinarith)]
  have hfl : ⌊Real.sin (pitchAt 0) * 15⌋ = 0 := by
    rw [Int.floor_eq_iff]
    constructor
    · push_cast; nlinarith
    · push_cast; nlinarith
  rw [hfl]
  decide

lemma yaw_count_pitch1 : yaw_count (pitchAt 1) = 3 := by
  have hπl := Real.pi_gt_d6
  have hπu := Real.pi_lt_d6
  refine yaw_count_triple 1 3 0.074800 0.074801 0.074728 0.074733 (by norm_num)
    ?_ ?_ (by norm_num) (by norm_num) (by norm_num) (by norm_num) (by norm_num)
    (by norm_num) (by norm_num) (by norm_num)
  · unfold pitchAt; push_cast; norm_num; linarith
  · unfold pitchAt; push_cast; norm_num; linarith

lemma yaw_count_pitch2 : yaw_count (pitchAt 2) = 6 := by
  have hπl := Real.pi_gt_d6
  have hπu := Real.pi_lt_d6
  refine yaw_count_triple 2 6 0.149599 0.149600 0.149014 0.149069 (by norm_num)
    ?_ ?_ (by norm_num) (by norm_num) (by norm_num) (by norm_num) (by norm_num)
    (by norm_num) (by norm_num) (by norm_num)
  · unfold pitchAt; push_cast; norm_num; linarith
  · unfold pitchAt; push_cast; norm_num; linarith

lemma yaw_count_pitch3 : yaw_count (pitchAt 3) = 9 := by
  have hπl := Real.pi_gt_d6
  have hπu := Real.pi_lt_d6
  refine yaw_count_triple 3 9 0.224399 0.224400 0.222383 0.222649 (by norm_num)
    ?_ ?_ (by norm_num) (by norm_num) (by norm_num) (by norm_num) (by norm_num)
    (by norm_num) (by norm_num) (by norm_num)
  · unfold pitchAt; push_cast; norm_num; linarith
  · unfold pitchAt; push_cast; norm_num; linarith

lemma yaw_count_pitch4 : yaw_count (pitchAt 4) = 11 := by
  have hπl := Real.pi_gt_d6
  have hπu := Real.pi_lt_d6
  refine yaw_count_triple 4 11 0.299199 0.299200 0.294317 0.295154 (by norm_num)
    ?_ ?_ (by norm_num) (by norm_num) (by norm_num) (by norm_num) (by norm_num)
    (by norm_num) (by norm_num) (by norm_num)
  · unfold pitchAt; push_cast; norm_num; linarith
  · unfold pitchAt; push_cast; norm_num; linarith

lemma yaw_count_pitch5 : yaw_count (pitchAt 5) = 13 := by
  have hπl := Real.pi_gt_d6
  have hπu := Real.pi_lt_d6
  refine yaw_count_triple 5 13 0.373999 0.374000 0.364261 0.366301 (by norm_num)
    ?_ ?_ (by norm_num) (by norm_num) (by norm_num) (by norm_num) (by norm_num)
    (by norm_num) (by norm_num) (by norm_num)
  · unfold pitchAt; push_cast; norm_num; linarith
  · unfold pitchAt; push_cast; norm_num; linarith

lemma yaw_count_pitch6 : yaw_count (pitchAt 6) = 14 := by
  have hπl := Real.pi_gt_d6
  have hπu := Real.pi_lt_d6
  refine yaw_count_triple 6 14 0.448798 0.448800 0.431618 0.435847 (by norm_num)
    ?_ ?_ (by norm_num) (by norm_num) (by norm_num) (by norm_num) (by norm_num)
    (by norm_num) (by norm_num) (by norm_num)
  · unfold pitchAt; push_cast; norm_num; linarith
  · unfold pitchAt; push_cast; norm_num; linarith

lemma pitchAt_pi_div_two : pitchAt 7 = Real.pi / 2 := by
  unfold pitchAt
  push_cast
  ring_nf

lemma yaw_count_pitch7 : yaw_count (pitchAt 7) = 15 := by
  unfold yaw_count pyInt
  rw [pitchAt_pi_div_two, Real.sin_pi_div_two]
  norm_num

lemma pitchAt_symm (k : ℕ) (hk : k ≤ 14) :
    pitchAt (14 - k) = Real.pi - pitchAt k := by
  unfold pitchAt
  rw [Nat.cast_sub hk]
  push_cast
  ring

lemma yaw_count_symm (k : ℕ) (hk : k ≤ 14) :
    yaw_count (pitchAt (14 - k)) = yaw_count (pitchAt k) := by
  rw [pitchAt_symm k hk]
  unfold yaw_count pyInt
  rw [Real.sin_pi_sub]

lemma det_rows_length :
    (((np_linspace 1e-6 (Real.pi - 1e-6) 15).map fun p =>
      (np_linspace 0 (2 * Real.pi) (yaw_count p).toNat).map fun y =>
        (y, np_clip p 1e-8 (Real.pi - 1e-8), (0 : ℝ))).flatten).length = 129 := by
  rw [List.length_flatten, List.map_map]
  have hcomp : (List.length ∘ fun p : ℝ =>
      (np_linspace 0 (2 * Real.pi) (yaw_count p).toNat).map fun y =>
        (y, np_clip p 1e-8 (Real.pi - 1e-8), (0 : ℝ))) =
      fun p : ℝ => (yaw_count p).toNat := by
    funext p
    simp [np_linspace_length]
  rw [hcomp, det_pitches_eq, List.map_map]
  have h8 : yaw_count (pitchAt 8) = yaw_count (pitchAt 6) := by
    have h := yaw_count_symm 6 (by norm_num)
    norm_num at h
    exact h
  have h9 : yaw_count (pitchAt 9) = yaw_count (pitchAt 5) := by
    have h := yaw_count_symm 5 (by norm_num)
    norm_num at h
    exact h
  have h10 : yaw_count (pitchAt 10) = yaw_count (pitchAt 4) := by
    have h := yaw_count_symm 4 (by norm_num)
    norm_num at h
    exact h
  have h11 : yaw_count (pitchAt 11) = yaw_count (pitchAt 3) := by
    have h := yaw_count_symm 3 (by norm_num)
    norm_num at h
    exact h
  have h12 : yaw_count (pitchAt 12) = yaw_count (pitchAt 2) := by
    have h := yaw_count_symm 2 (by norm_num)
    norm_num at h
    exact h
  have h13 : yaw_count (pitchAt 13) = yaw_count (pitchAt 1) := by
    have h := yaw_count_symm 1 (by norm_num)
    norm_num at h
    exact h
  have h14 : yaw_count (pitchAt 14) = yaw_count (pitchAt 0) := by
    have h := yaw_count_symm 0 (by norm_num)
    norm_num at h
    exact h
  have hr : List.range 15 = [0, 1, 2, 3, 4, 5, 6, 7, 8, 9, 10, 11, 12, 13, 14] := by
    rfl
  rw [hr]
  simp only [List.map_cons, List.map_nil, Function.comp_apply, List.sum_cons,
    List.sum_nil]
  rw [yaw_count_pitch0, yaw_count_pitch1, yaw_count_pitch2, yaw_count_pitch3,
    yaw_count_pitch4, yaw_count_pitch5, yaw_count_pitch6, yaw_count_pitch7,
    h8, h9, h10, h11, h12, h13, h14, yaw_count_pitch0, yaw_count_pitch1,
    yaw_count_pitch2, yaw_count_pitch3, yaw_count_pitch4, yaw_count_pitch5,
    yaw_count_pitch6]
  decide

/-- **C2.** `generate_camera_angles` with `random=False` raises an assertion
error for every `num_views ≠ 129`, and for `num_views = 129` the fixed
latitude/longitude grid (15 pitch steps, `max(int(sin(pitch)·15), 1)` yaw
values per step) produces exactly 129 `(yaw, pitch, roll)` rows, so the final
`(num_views, 3)` shape assertion passes. -/
theorem claim_C2_deterministic_grid (num_views : ℕ) :
    (num_views ≠ 129 → ∃ msg, generate_camera_angles_det num_views = .error msg) ∧
    (num_views = 129 →
      ∃ rows, generate_camera_angles_det num_views = .ok rows ∧ rows.length = 129) := by
  constructor
  · intro h
    exact ⟨_, by unfold generate_camera_angles_det; rw [if_pos h]⟩
  · rintro rfl
    refine ⟨_, ?_, det_rows_length⟩
    unfold generate_camera_angles_det
    rw [if_neg (by norm_num)]
    exact if_neg (by rw [det_rows_length]; norm_num)

/-- Witness for C2: the error branch at `num_views = 5` and the success
branch at `num_views = 129`. -/
theorem claim_C2_witness :
    ((5 : ℕ) ≠ 129 ∧ ∃ msg, generate_camera_angles_det 5 = .error msg) ∧
    ∃ rows, generate_camera_angles_det 129 = .ok rows ∧ rows.length = 129 :=
  ⟨⟨by norm_num, (claim_C2_deterministic_grid 5).1 (by norm_num)⟩,
   (claim_C2_deterministic_grid 129).2 rfl⟩

/-! ## `render_dataset.rotate_camera` and the Blender look-at rotation

```python
def rotate_camera(yaw, pitch, roll, fov, radius):
    assert roll == 0.0, f"We do not use roll: {roll}"
    cam.location = Vector([
        radius * np.sin(pitch) * np.cos(yaw),
        radius * np.sin(pitch) * np.sin(yaw),
        radius * np.cos(pitch),
    ])
    direction = -cam.location
    rot_quat = direction.to_track_quat('-Z', 'Y')
    cam.rotation_euler = rot_quat.to_euler()
```

The camera's world rotation is entirely produced by the external call
`direction.to_track_quat('-Z', 'Y')`, which is modelled below from its
documented semantics. -/

/-- Euclidean norm of a 3-vector. -/
noncomputable def vnorm (v : Fin 3 → ℝ) : ℝ :=
  Real.sqrt (v 0 ^ 2 + v 1 ^ 2 + v 2 ^ 2)

/-- Dot product of 3-vectors. -/
def dot3 (a b : Fin 3 → ℝ) : ℝ := a 0 * b 0 + a 1 * b 1 + a 2 * b 2

/-- Right-handed cross product of 3-vectors. -/
def cross3 (a b : Fin 3 → ℝ) : Fin 3 → ℝ :=
  ![a 1 * b 2 - a 2 * b 1, a 2 * b 0 - a 0 * b 2, a 0 * b 1 - a 1 * b 0]

/-- Third column (object-space Z axis, in world space) of the rotation
returned by Blender's `Vector.to_track_quat('-Z', 'Y')`: the object's −Z axis
tracks `dir`, so its +Z axis is `-dir/‖dir‖`. -/
noncomputable def ttq_z (dir : Fin 3 → ℝ) : Fin 3 → ℝ :=
  fun i => -dir i / vnorm dir

/-- Un-normalized second column of `to_track_quat('-Z', 'Y')`: the world up
axis `(0,0,1)` minus its component along the tracked axis. -/
noncomputable def ttq_yRaw (dir : Fin 3 → ℝ) : Fin 3 → ℝ :=
  fun i => (![0, 0, 1] : Fin 3 → ℝ) i - dot3 ![0, 0, 1] (ttq_z dir) * ttq_z dir i

/-- Second column (object-space Y axis) of `to_track_quat('-Z', 'Y')`: the
unit projection of world +Z onto the plane orthogonal to the tracked axis. -/
noncomputable def ttq_y (dir : Fin 3 → ℝ) : Fin 3 → ℝ :=
  fun i => ttq_yRaw dir i / vnorm (ttq_yRaw dir)

/-- Modelled from Blender's `mathutils.Vector.to_track_quat('-Z', 'Y')`
(external to this repository), as the camera-to-world rotation matrix with
columns `[y × z, y, z]`: the object's −Z axis points along `dir` and its Y
axis leans toward world +Z. -/
noncomputable def to_track_quat_neg_z_y (dir : Fin 3 → ℝ) :
    Matrix (Fin 3) (Fin 3) ℝ :=
  Matrix.of fun i j =>
    ![cross3 (ttq_y dir) (ttq_z dir), ttq_y dir, ttq_z dir] j i

/-- `cam.location` as set by `rotate_camera`. -/
noncomputable def camera_location (yaw pitch radius : ℝ) : Fin 3 → ℝ :=
  ![radius * Real.sin pitch * Real.cos yaw,
    radius * Real.sin pitch * Real.sin yaw,
    radius * Real.cos pitch]

open Classical in
/-- `render_dataset.rotate_camera`, returning the rotation block of the
camera's resulting `matrix_world` (the translation block and the
field-of-view assignment play no part in the claims). -/
noncomputable def rotate_camera (yaw pitch roll radius : ℝ) :
    Except String (Matrix (Fin 3) (Fin 3) ℝ) :=
  if roll ≠ 0 then .error "We do not use roll"
  else .ok (to_track_quat_neg_z_y fun i => -camera_location yaw pitch radius i)

lemma to_track_quat_rotate_eq (y p r : ℝ) (hp1 : 0 < p) (hp2 : p < Real.pi)
    (hr : 0 < r) :
    to_track_quat_neg_z_y (fun i => -camera_location y p r i) =
      !![-Real.sin y, -(Real.cos p * Real.cos y), Real.sin p * Real.cos y;
         Real.cos y, -(Real.cos p * Real.sin y), Real.sin p * Real.sin y;
         0, Real.sin p, Real.cos p] := by
  have hsp : 0 < Real.sin p := Real.sin_pos_of_pos_of_lt_pi hp1 hp2
  have hspne : Real.sin p ≠ 0 := ne_of_gt hsp
  have hrne : r ≠ 0 := ne_of_gt hr
  have hpyth := Real.sin_sq_add_cos_sq p
  have hy2 := Real.sin_sq_add_cos_sq y
  set dirv : Fin 3 → ℝ := fun i => -camera_location y p r i with hdirv
  have hd0 : dirv 0 = -(r * Real.sin p * Real.cos y) := by
    simp [hdirv, camera_location]
  have hd1 : dirv 1 = -(r * Real.sin p * Real.sin y) := by
    simp [hdirv, camera_location]
  have hd2 : dirv 2 = -(r * Real.cos p) := by
    simp [hdirv, camera_location]
  have hn : vnorm dirv = r := by
    unfold vnorm
    rw [hd0, hd1, hd2]
    rw [show (-(r * Real.sin p * Real.cos y)) ^ 2 +
        (-(r * Real.sin p * Real.sin y)) ^ 2 + (-(r * Real.cos p)) ^ 2 = r ^ 2 by
      linear_combination r ^ 2 * Real.sin p ^ 2 * hy2 + r ^ 2 * hpyth]
    exact Real.sqrt_sq hr.le
  have hz : ttq_z dirv =
      ![Real.sin p * Real.cos y, Real.sin p * Real.sin y, Real.cos p] := by
    have e0 : ttq_z dirv 0 = Real.sin p * Real.cos y := by
      unfold ttq_z
      rw [hn, hd0]
      field_simp
      ring
    have e1 : ttq_z dirv 1 = Real.sin p * Real.sin y := by
      unfold ttq_z
      rw [hn, hd1]
      field_simp
      ring
    have e2 : ttq_z dirv 2 = Real.cos p := by
      unfold ttq_z
      rw [hn, hd2]
      field_simp
    funext i
    fin_cases i
    · exact e0
    · exact e1
    · exact e2
  have hdot : dot3 ![0, 0, 1] (ttq_z dirv) = Real.cos p := by
    rw [hz]
    simp [dot3]
  have hyRaw : ttq_yRaw dirv =
      ![-(Real.cos p * (Real.sin p * Real.cos y)),
        -(Real.cos p * (Real.sin p * Real.sin y)),
        1 - Real.cos p * Real.cos p] := by
    have e0 : ttq_yRaw dirv 0 = -(Real.cos p * (Real.sin p * Real.cos y)) := by
      unfold ttq_yRaw
      rw [hdot, hz]
      simp
    have e1 : ttq_yRaw dirv 1 = -(Real.cos p * (Real.sin p * Real.sin y)) := by
      unfold ttq_yRaw
      rw [hdot, hz]
      simp
    have e2 : ttq_yRaw dirv 2 = 1 - Real.cos p * Real.cos p := by
      unfold ttq_yRaw
      rw [hdot, hz]
      simp
    funext i
    fin_cases i
    · exact e0
    · exact e1
    · exact e2
  have hnyRaw : vnorm (ttq_yRaw dirv) = Real.sin p := by
    rw [hyRaw]
    unfold vnorm
    simp only [Matrix.cons_val_zero, Matrix.cons_val_one, Matrix.head_cons,
      Matrix.cons_val_two, Matrix.tail_cons]
    rw [show (-(Real.cos p * (Real.sin p * Real.cos y))) ^ 2 +
        (-(Real.cos p * (Real.sin p * Real.sin y))) ^ 2 +
        (1 - Real.cos p * Real.cos p) ^ 2 = Real.sin p ^ 2 by
      linear_combination (Real.cos p ^ 2 * Real.sin p ^ 2) * hy2 +
        (Real.cos p ^ 2 - 1) * hpyth]
    exact Real.sqrt_sq hsp.le
  have hy' : ttq_y dirv =
      ![-(Real.cos p * Real.cos y), -(Real.cos p * Real.sin y), Real.sin p] := by
    have e0 : ttq_y dirv 0 = -(Real.cos p * Real.cos y) := by
      unfold ttq_y
      rw [hnyRaw, hyRaw]
      simp
      field_simp
      ring
    have e1 : ttq_y dirv 1 = -(Real.cos p * Real.sin y) := by
      unfold ttq_y
      rw [hnyRaw, hyRaw]
      simp
      field_simp
      ring
    have e2 : ttq_y dirv 2 = Real.sin p := by
      unfold ttq_y
      rw [hnyRaw, hyRaw]
      simp
      field_simp
      linear_combination -hpyth
    funext i
    fin_cases i
    · exact e0
    · exact e1
    · exact e2
  have hx : cross3 (ttq_y dirv) (ttq_z dirv) = ![-Real.sin y, Real.cos y, 0] := by
    rw [hy', hz]
    have e0 : cross3 ![-(Real.cos p * Real.cos y), -(Real.cos p * Real.sin y), Real.sin p]
        ![Real.sin p * Real.cos y, Real.sin p * Real.sin y, Real.cos p] 0 = -Real.sin y := by
      unfold cross3
      simp
      linear_combination -Real.sin y * hpyth
    have e1 : cross3 ![-(Real.cos p * Real.cos y), -(Real.cos p * Real.sin y), Real.sin p]
        ![Real.sin p * Real.cos y, Real.sin p * Real.sin y, Real.cos p] 1 = Real.cos y := by
      unfold cross3
      simp
      linear_combination Real.cos y * hpyth
    have e2 : cross3 ![-(Real.cos p * Real.cos y), -(Real.cos p * Real.sin y), Real.sin p]
        ![Real.sin p * Real.cos y, Real.sin p * Real.sin y, Real.cos p] 2 = 0 := by
      unfold cross3
      simp
      ring
    funext i
    fin_cases i
    · exact e0
    · exact e1
    · exact e2
  unfold to_track_quat_neg_z_y
  rw [hx, hy', hz]
  ext i j
  fin_cases i <;> fin_cases j <;> simp

lemma arctan2_cos_neg_sin (y : ℝ) (hy1 : -Real.pi < y) (hy2 : y ≤ Real.pi) :
    arctan2 (Real.cos y) (-Real.sin y) =
      if y ≤ Real.pi / 2 then y + Real.pi / 2 else y - 3 * Real.pi / 2 := by
  have hπ := Real.pi_pos
  by_cases hc : y ≤ Real.pi / 2
  · rw [if_pos hc]
    have h := arctan2_cos_sin (θ := y + Real.pi / 2) ⟨by linarith, by linarith⟩
    rw [Real.cos_add, Real.sin_add, Real.cos_pi_div_two, Real.sin_pi_div_two] at h
    rw [show Real.sin y * 0 + Real.cos y * 1 = Real.cos y by ring,
        show Real.cos y * 0 - Real.sin y * 1 = -Real.sin y by ring] at h
    exact h
  · rw [if_neg hc]
    push_neg at hc
    have h32c : Real.cos (3 * Real.pi / 2) = 0 := by
      rw [show (3 * Real.pi / 2 : ℝ) = Real.pi + Real.pi / 2 by ring, Real.cos_add,
        Real.cos_pi, Real.sin_pi, Real.cos_pi_div_two, Real.sin_pi_div_two]
      ring
    have h32s : Real.sin (3 * Real.pi / 2) = -1 := by
      rw [show (3 * Real.pi / 2 : ℝ) = Real.pi + Real.pi / 2 by ring, Real.sin_add,
        Real.cos_pi, Real.sin_pi, Real.cos_pi_div_two, Real.sin_pi_div_two]
      ring
    have h := arctan2_cos_sin (θ := y - 3 * Real.pi / 2) ⟨by linarith, by linarith⟩
    rw [Real.cos_sub, Real.sin_sub, h32c, h32s] at h
    rw [show Real.sin y * 0 - Real.cos y * (-1) = Real.cos y by ring,
        show Real.cos y * 0 + Real.sin y * (-1) = -Real.sin y by ring] at h
    exact h

/-- The full round trip `get_euler_angles ∘ rotate_camera`, in closed form:
the pitch and roll are recovered exactly, but the yaw comes back shifted by
`π/2` (wrapped into `(-π, π]`). -/
lemma rotate_camera_roundtrip (y p r : ℝ) (hy1 : -Real.pi < y)
    (hy2 : y ≤ Real.pi) (hp1 : 0 < p) (hp2 : p < Real.pi) (hr : 0 < r) :
    (rotate_camera y p 0 r).bind get_euler_angles =
      .ok ((if y ≤ Real.pi / 2 then y + Real.pi / 2 else y - 3 * Real.pi / 2), p, 0) := by
  have hR := to_track_quat_rotate_eq y p r hp1 hp2 hr
  unfold rotate_camera
  rw [if_neg (by norm_num)]
  rw [hR]
  show get_euler_angles _ = _
  set T : Matrix (Fin 3) (Fin 3) ℝ :=
    !![-Real.sin y, -(Real.cos p * Real.cos y), Real.sin p * Real.cos y;
       Real.cos y, -(Real.cos p * Real.sin y), Real.sin p * Real.sin y;
       0, Real.sin p, Real.cos p] with hT
  have h00 : T 0 0 = -Real.sin y := by simp [hT]
  have h10 : T 1 0 = Real.cos y := by simp [hT]
  have h20 : T 2 0 = 0 := by simp [hT]
  have h21 : T 2 1 = Real.sin p := by simp [hT]
  have h22 : T 2 2 = Real.cos p := by simp [hT]
  have hpitch : arctan2 (T 2 1) (T 2 2) = p := by
    rw [h21, h22]
    exact arctan2_cos_sin ⟨by linarith [Real.pi_pos], le_of_lt hp2⟩
  have hyaw : arctan2 (T 1 0) (T 0 0) =
      if y ≤ Real.pi / 2 then y + Real.pi / 2 else y - 3 * Real.pi / 2 := by
    rw [h10, h00]
    exact arctan2_cos_neg_sin y hy1 hy2
  have hroll : arctan2 (-(T 2 0)) (Real.sqrt ((T 2 1) ^ 2 + (T 2 2) ^ 2)) = 0 := by
    rw [h20, h21, h22, neg_zero, Real.sin_sq_add_cos_sq, Real.sqrt_one]
    exact arctan2_zero_one
  unfold get_euler_angles
  rw [hpitch, hyaw, hroll]
  rw [if_neg (by push_neg; linarith)]

/-- **C3 (counterexample).** At `yaw = 0`, `pitch = π/2`, `radius = 1`, the
round trip returns `(π/2, π/2, 0)`, not `(0, π/2, 0)` as the claim states:
the recovered yaw is offset by `π/2`. -/
theorem claim_C3_counterexample :
    (rotate_camera 0 (Real.pi / 2) 0 1).bind get_euler_angles =
      .ok (Real.pi / 2, Real.pi / 2, 0) ∧
    ¬ ((rotate_camera 0 (Real.pi / 2) 0 1).bind get_euler_angles =
      .ok (0, Real.pi / 2, 0)) := by
  have hπ := Real.pi_pos
  have h := rotate_camera_roundtrip 0 (Real.pi / 2) 1 (by linarith) (by linarith)
    (by linarith) (by linarith) (by linarith)
  rw [if_pos (by linarith)] at h
  rw [zero_add] at h
  refine ⟨h, ?_⟩
  rw [h]
  intro hcontra
  have : (Real.pi / 2, Real.pi / 2, (0 : ℝ)) = ((0 : ℝ), Real.pi / 2, (0 : ℝ)) :=
    Except.ok.inj hcontra
  have hfst : Real.pi / 2 = 0 := congrArg Prod.fst this
  linarith

/-- **C3 (amended).** For every `yaw ∈ (-π, π]`, `pitch ∈ (0, π)` and
`radius > 0`, applying `get_euler_angles` to the camera-to-world rotation
produced by `rotate_camera(yaw, pitch, roll=0, ...)` returns
`(wrap(yaw + π/2), pitch, 0)`, where `wrap` reduces into `(-π, π]` — i.e.
the pitch and roll round-trip exactly, while the returned yaw is the input
yaw shifted by the constant `π/2` (modulo `2π`). -/
theorem claim_C3_amended (y p r : ℝ) (hy1 : -Real.pi < y) (hy2 : y ≤ Real.pi)
    (hp1 : 0 < p) (hp2 : p < Real.pi) (hr : 0 < r) :
    (rotate_camera y p 0 r).bind get_euler_angles =
      .ok ((if y ≤ Real.pi / 2 then y + Real.pi / 2 else y - 3 * Real.pi / 2), p, 0) :=
  rotate_camera_roundtrip y p r hy1 hy2 hp1 hp2 hr

/-- Witness for the amended C3 at `yaw = π`, `pitch = π/2`, `radius = 2`
(exercising the wrap-around branch `yaw > π/2`). -/
theorem claim_C3_witness :
    (-Real.pi < Real.pi ∧ Real.pi ≤ Real.pi ∧ 0 < Real.pi / 2 ∧
     Real.pi / 2 < Real.pi ∧ (0 : ℝ) < 2) ∧
    (rotate_camera Real.pi (Real.pi / 2) 0 2).bind get_euler_angles =
      .ok ((if Real.pi ≤ Real.pi / 2 then Real.pi + Real.pi / 2
            else Real.pi - 3 * Real.pi / 2), Real.pi / 2, 0) := by
  have hπ := Real.pi_pos
  exact ⟨⟨by linarith, le_refl _, by linarith, by linarith, by norm_num⟩,
    claim_C3_amended Real.pi (Real.pi / 2) 2 (by linarith) (le_refl _)
      (by linarith) (by linarith) (by norm_num)⟩

/-! ## `prepare_for_training`: angle validity assertions (Step 2.3)

```python
if not use_roll_angles:
    angles_values = np.array([v for v in camera_angles.values()])
    assert abs(angles_values[:, [2]]).mean() < 1e-5, "The dataset contains roll angles: ..."
    assert (angles_values[:, [0]] ** 2).sum() ** 0.5 > 0.1, "Broken yaw angles (all zeros)."
    assert (angles_values[:, [1]] ** 2).sum() ** 0.5 > 0.1, "Broken pitch angles (all zeros)."
    assert angles_values[:, [0]].min() >= -np.pi, "Broken yaw angles (too small): ..."
    assert angles_values[:, [0]].max() <= np.pi, "Broken yaw angles (too large): ..."
    assert angles_values[:, [1]].min() >= 0.0, "Broken pitch angles (too small): ..."
    assert angles_values[:, [1]].max() <= np.pi, "Broken pitch angles (too large): ..."
```
-/

/-- `np.min` over a nonempty list (`0` on `[]`, where numpy raises). -/
noncomputable def np_min : List ℝ → ℝ
  | [] => 0
  | x :: xs => xs.foldl min x

/-- `np.max` over a nonempty list (`0` on `[]`, where numpy raises). -/
noncomputable def np_max : List ℝ → ℝ
  | [] => 0
  | x :: xs => xs.foldl max x

open Classical in
/-- The chain of angle-validity assertions of `prepare_for_training`
(Step 2.3), on the extracted `(yaw, pitch, roll)` triples, stopping at the
first violated check. -/
noncomputable def verify_angles (angles : List (ℝ × ℝ × ℝ))
    (use_roll_angles : Bool) : Except String Unit :=
  if use_roll_angles then .ok ()
  else
    let yaws := angles.map fun a => a.1
    let pitches := angles.map fun a => a.2.1
    let rolls := angles.map fun a => a.2.2
    if ¬ ((rolls.map fun x => |x|).sum / (rolls.length : ℝ) < 1e-5) then
      .error "The dataset contains roll angles"
    else if ¬ (Real.sqrt ((yaws.map fun x => x ^ 2).sum) > 0.1) then
      .error "Broken yaw angles (all zeros)."
    else if ¬ (Real.sqrt ((pitches.map fun x => x ^ 2).sum) > 0.1) then
      .error "Broken pitch angles (all zeros)."
    else if ¬ (np_min yaws ≥ -Real.pi) then
      .error "Broken yaw angles (too small)"
    else if ¬ (np_max yaws ≤ Real.pi) then
      .error "Broken yaw angles (too large)"
    else if ¬ (np_min pitches ≥ 0) then
      .error "Broken pitch angles (too small)"
    else if ¬ (np_max pitches ≤ Real.pi) then
      .error "Broken pitch angles (too large)"
    else .ok ()

lemma le_foldl_min (c x : ℝ) (xs : List ℝ) :
    c ≤ xs.foldl min x ↔ c ≤ x ∧ ∀ y ∈ xs, c ≤ y := by
  induction xs generalizing x with
  | nil => simp
  | cons z zs ih =>
    rw [List.foldl_cons, ih, le_min_iff]
    simp only [List.forall_mem_cons]
    tauto

lemma foldl_max_le (c x : ℝ) (xs : List ℝ) :
    xs.foldl max x ≤ c ↔ x ≤ c ∧ ∀ y ∈ xs, y ≤ c := by
  induction xs generalizing x with
  | nil => simp
  | cons z zs ih =>
    rw [List.foldl_cons, ih, max_le_iff]
    simp only [List.forall_mem_cons]
    tauto

lemma np_min_ge_iff (c x : ℝ) (xs : List ℝ) :
    c ≤ np_min (x :: xs) ↔ ∀ y ∈ x :: xs, c ≤ y := by
  unfold np_min
  rw [le_foldl_min]
  simp [List.forall_mem_cons]

lemma np_max_le_iff (c x : ℝ) (xs : List ℝ) :
    np_max (x :: xs) ≤ c ↔ ∀ y ∈ x :: xs, y ≤ c := by
  unfold np_max
  rw [foldl_max_le]
  simp [List.forall_mem_cons]

lemma np_min_map_ge_iff {α : Type} (c : ℝ) (f : α → ℝ) (x : α) (xs : List α) :
    c ≤ np_min ((x :: xs).map f) ↔ ∀ y ∈ x :: xs, c ≤ f y := by
  rw [List.map_cons, np_min_ge_iff]
  constructor
  · intro h y hy
    refine h _ ?_
    rw [← List.map_cons]
    exact List.mem_map_of_mem f hy
  · intro h y hy
    rw [← List.map_cons] at hy
    obtain ⟨z, hz, rfl⟩ := List.mem_map.mp hy
    exact h z hz

lemma np_max_map_le_iff {α : Type} (c : ℝ) (f : α → ℝ) (x : α) (xs : List α) :
    np_max ((x :: xs).map f) ≤ c ↔ ∀ y ∈ x :: xs, f y ≤ c := by
  rw [List.map_cons, np_max_le_iff]
  constructor
  · intro h y hy
    refine h _ ?_
    rw [← List.map_cons]
    exact List.mem_map_of_mem f hy
  · intro h y hy
    rw [← List.map_cons] at hy
    obtain ⟨z, hz, rfl⟩ := List.mem_map.mp hy
    exact h z hz

/-- **C5.** With `use_roll_angles = False`, the angle-validity step of
`prepare_for_training` succeeds iff the mean absolute roll is below `1e-5`,
the yaw (resp. pitch) values are not all essentially zero (root of sum of
squares above `0.1`), every yaw lies in `[-π, π]` and every pitch in
`[0, π]`; and it stops at the first violated check (shown here for the first
one: whenever the roll check fails, the run aborts with the roll message,
whatever the other angles are). -/
theorem claim_C5_angle_assertions (angles : List (ℝ × ℝ × ℝ))
    (hne : angles ≠ []) :
    (verify_angles angles false = .ok () ↔
      ((angles.map fun a => |a.2.2|).sum / (angles.length : ℝ) < 1e-5 ∧
       Real.sqrt ((angles.map fun a => a.1 ^ 2).sum) > 0.1 ∧
       Real.sqrt ((angles.map fun a => a.2.1 ^ 2).sum) > 0.1 ∧
       (∀ a ∈ angles, -Real.pi ≤ a.1 ∧ a.1 ≤ Real.pi) ∧
       ∀ a ∈ angles, 0 ≤ a.2.1 ∧ a.2.1 ≤ Real.pi)) ∧
    (¬ ((angles.map fun a => |a.2.2|).sum / (angles.length : ℝ) < 1e-5) →
      verify_angles angles false = .error "The dataset contains roll angles") := by
  obtain ⟨a, as, rfl⟩ : ∃ a as, angles = a :: as := by
    cases angles with
    | nil => exact absurd rfl hne
    | cons a as => exact ⟨a, as, rfl⟩
  have hc1 : ((((a :: as).map fun x => x.2.2).map fun x => |x|).sum /
        ((((a :: as).map fun x => x.2.2)).length : ℝ) < 1e-5) ↔
      (((a :: as).map fun x => |x.2.2|).sum / (((a :: as)).length : ℝ) < 1e-5) := by
    simp only [List.map_map, List.length_map, Function.comp_def]
  have hc2 : (Real.sqrt ((((a :: as).map fun x => x.1).map fun x => x ^ 2).sum) > 0.1) ↔
      (Real.sqrt (((a :: as).map fun x => x.1 ^ 2).sum) > 0.1) := by
    simp only [List.map_map, Function.comp_def]
  have hc3 : (Real.sqrt ((((a :: as).map fun x => x.2.1).map fun x => x ^ 2).sum) > 0.1) ↔
      (Real.sqrt (((a :: as).map fun x => x.2.1 ^ 2).sum) > 0.1) := by
    simp only [List.map_map, Function.comp_def]
  have hc4a := np_min_map_ge_iff (-Real.pi) (fun x : ℝ × ℝ × ℝ => x.1) a as
  have hc4b := np_max_map_le_iff Real.pi (fun x : ℝ × ℝ × ℝ => x.1) a as
  have hc5a := np_min_map_ge_iff 0 (fun x : ℝ × ℝ × ℝ => x.2.1) a as
  have hc5b := np_max_map_le_iff Real.pi (fun x : ℝ × ℝ × ℝ => x.2.1) a as
  constructor
  · simp only [verify_angles, Bool.false_eq_true, if_false]
    split_ifs with h1 h2 h3 h4 h5 h6 h7
    · exact iff_of_true rfl
        ⟨hc1.mp h1, hc2.mp h2, hc3.mp h3,
         fun x hx => ⟨hc4a.mp h4 x hx, hc4b.mp h5 x hx⟩,
         fun x hx => ⟨hc5a.mp h6 x hx, hc5b.mp h7 x hx⟩⟩
    · exact iff_of_false not_false fun hR =>
        h7 (hc5b.mpr fun x hx => (hR.2.2.2.2 x hx).2)
    · exact iff_of_false not_false fun hR =>
        h6 (hc5a.mpr fun x hx => (hR.2.2.2.2 x hx).1)
    · exact iff_of_false not_false fun hR =>
        h5 (hc4b.mpr fun x hx => (hR.2.2.2.1 x hx).2)
    · exact iff_of_false not_false fun hR =>
        h4 (hc4a.mpr fun x hx => (hR.2.2.2.1 x hx).1)
    · exact iff_of_false not_false fun hR => h3 (hc3.mpr hR.2.2.1)
    · exact iff_of_false not_false fun hR => h2 (hc2.mpr hR.2.1)
    · exact iff_of_false not_false fun hR => h1 (hc1.mpr hR.1)
  · intro hfail
    simp only [verify_angles, Bool.false_eq_true, if_false]
    rw [if_pos fun hc => hfail (hc1.mp hc)]

/-- Witness for C5 at the one-element list `[(1, 1, 0)]`, on which all the
checks pass. -/
theorem claim_C5_witness :
    ([((1 : ℝ), (1 : ℝ), (0 : ℝ))] ≠ ([] : List (ℝ × ℝ × ℝ))) ∧
    verify_angles [((1 : ℝ), 1, 0)] false = .ok () := by
  have hπ3 := Real.pi_gt_three
  have hπ := Real.pi_pos
  have hne : ([((1 : ℝ), (1 : ℝ), (0 : ℝ))] : List (ℝ × ℝ × ℝ)) ≠ [] := by simp
  refine ⟨hne, ((claim_C5_angle_assertions _ hne).1).mpr ⟨?_, ?_, ?_, ?_, ?_⟩⟩
  · norm_num
  · simp only [List.map_cons, List.map_nil, List.sum_cons, List.sum_nil, one_pow,
      add_zero, Real.sqrt_one]
    norm_num
  · simp only [List.map_cons, List.map_nil, List.sum_cons, List.sum_nil, one_pow,
      add_zero, Real.sqrt_one]
    norm_num
  · intro x hx
    simp only [List.mem_singleton] at hx
    subst hx
    constructor
    · show -Real.pi ≤ (1 : ℝ)
      linarith
    · show (1 : ℝ) ≤ Real.pi
      linarith
  · intro x hx
    simp only [List.mem_singleton] at hx
    subst hx
    constructor
    · show (0 : ℝ) ≤ 1
      linarith
    · show (1 : ℝ) ≤ Real.pi
      linarith

/-! ## `filter_models.filter_models`: selection logic

```python
models_to_copy = set([m for m in opacities if opacities[m] >= opacity_remove_thresh])
...
with open('low-quality-models.txt', 'r') as f:
    low_quality_models = set([m for m in f.read().split('\n') if not m.startswith('#')])
all_current_models = models_to_copy
models_to_copy = set([m for m in all_current_models if not os.path.basename(m) in low_quality_models])
```
-/

/-- The non-comment lines of `low-quality-models.txt`. -/
def parse_low_quality_models (lines : List String) : List String :=
  lines.filter fun l => !(l.startsWith "#")

open Classical in
/-- The model-selection logic of `filter_models` (Steps 2–4): keep the models
whose average opacity is at least `opacity_remove_thresh`, then drop those
whose directory basename occurs in the manual low-quality list.  `models` is
the key list of the `opacities` dict, `opacity` its value map, and `basename`
abstracts `os.path.basename`. -/
noncomputable def filter_models_select (models : List String)
    (opacity : String → ℝ) (opacity_remove_thresh : ℝ)
    (low_quality_lines : List String) (basename : String → String) :
    List String :=
  let models_to_copy :=
    models.filter fun m => decide (opacity m ≥ opacity_remove_thresh)
  let low_quality_models := parse_low_quality_models low_quality_lines
  models_to_copy.filter fun m => decide (basename m ∉ low_quality_models)

/-- **C6.** A model survives `filter_models`' selection (and is therefore
copied to the target path) iff its average opacity is at least the threshold
and its basename is not a non-comment line of `low-quality-models.txt`. -/
theorem claim_C6_filter_models (models : List String) (opacity : String → ℝ)
    (thresh : ℝ) (low_quality_lines : List String) (basename : String → String)
    (m : String) :
    m ∈ filter_models_select models opacity thresh low_quality_lines basename ↔
      m ∈ models ∧ thresh ≤ opacity m ∧
        basename m ∉ parse_low_quality_models low_quality_lines := by
  simp only [filter_models_select, List.mem_filter, decide_eq_true_eq, ge_iff_le]
  tauto

/-! ## `prepare_for_training.collect_class_labels`

```python
all_files = {...}  # non-JSON files under data_dir
file2parent = {f: os.path.dirname(f) for f in all_files}
parent2id = {p: i for i, p in enumerate(set(file2parent.values()))}
labels = {remove_root(f, dataset_name): parent2id[p] for f, p in file2parent.items()}
```
-/

/-- The class label `collect_class_labels` assigns to file `f`:
`parent2id[file2parent[f]]`.  `parent` abstracts `os.path.dirname`, and
`parent2id = {p: i for i, p in enumerate(set(...))}` is modelled by the index
into an enumeration `parents_enum` of the distinct parent directories (Python
`set` iteration order is arbitrary, so the enumeration is quantified over in
the theorem). -/
def collect_class_labels_label (parent : String → String)
    (parents_enum : List String) (f : String) : ℕ :=
  parents_enum.indexOf (parent f)

/-- **C7.** `collect_class_labels` labels every non-JSON file by directory
structure alone: two files get the same label iff they share a parent
directory, and the labels used are exactly `0 .. n-1` where `n` is the number
of distinct parent directories. -/
theorem claim_C7_class_labels (files parents_enum : List String)
    (parent : String → String) (hnodup : parents_enum.Nodup)
    (hsub1 : ∀ p ∈ parents_enum, p ∈ files.map parent)
    (hsub2 : ∀ p ∈ files.map parent, p ∈ parents_enum) :
    (∀ f1 ∈ files, ∀ f2 ∈ files,
      (collect_class_labels_label parent parents_enum f1 =
        collect_class_labels_label parent parents_enum f2 ↔
       parent f1 = parent f2)) ∧
    (∀ f ∈ files, collect_class_labels_label parent parents_enum f <
      parents_enum.length) ∧
    (∀ k < parents_enum.length,
      ∃ f ∈ files, collect_class_labels_label parent parents_enum f = k) ∧
    parents_enum.length = (files.map parent).dedup.length := by
  have hmem : ∀ f ∈ files, parent f ∈ parents_enum := fun f hf =>
    hsub2 _ (List.mem_map_of_mem parent hf)
  refine ⟨?_, ?_, ?_, ?_⟩
  · intro f1 h1 f2 h2
    exact List.indexOf_inj (hmem f1 h1) (hmem f2 h2)
  · intro f hf
    exact List.indexOf_lt_length.mpr (hmem f hf)
  · intro k hk
    have hpmem : parents_enum[k] ∈ parents_enum := List.getElem_mem hk
    obtain ⟨f, hf, hfp⟩ := List.mem_map.mp (hsub1 _ hpmem)
    refine ⟨f, hf, ?_⟩
    unfold collect_class_labels_label
    rw [hfp]
    exact List.indexOf_getElem hnodup k hk
  · have hperm : parents_enum.Perm (files.map parent).dedup := by
      rw [List.perm_ext_iff_of_nodup hnodup (List.nodup_dedup _)]
      intro p
      rw [List.mem_dedup]
      exact ⟨fun h => hsub1 p h, fun h => hsub2 p h⟩
    exact hperm.length_eq

/-- Witness for C7 on a two-class directory tree: files `a/x`, `a/y`, `b/z`
with `parent` taking the leading directory letter, and the arbitrary set
enumeration `["b", "a"]`. -/
theorem claim_C7_witness :
    ((["b", "a"] : List String).Nodup ∧
     (∀ p ∈ (["b", "a"] : List String),
        p ∈ (["a/x", "a/y", "b/z"] : List String).map fun s => s.take 1) ∧
     (∀ p ∈ (["a/x", "a/y", "b/z"] : List String).map fun s => s.take 1,
        p ∈ (["b", "a"] : List String))) ∧
    ((∀ f1 ∈ (["a/x", "a/y", "b/z"] : List String),
       ∀ f2 ∈ (["a/x", "a/y", "b/z"] : List String),
        (collect_class_labels_label (fun s => s.take 1) ["b", "a"] f1 =
          collect_class_labels_label (fun s => s.take 1) ["b", "a"] f2 ↔
         (fun s : String => s.take 1) f1 = (fun s : String => s.take 1) f2)) ∧
     (∀ f ∈ (["a/x", "a/y", "b/z"] : List String),
       collect_class_labels_label (fun s => s.take 1) ["b", "a"] f <
         (["b", "a"] : List String).length) ∧
     (∀ k < (["b", "a"] : List String).length,
       ∃ f ∈ (["a/x", "a/y", "b/z"] : List String),
         collect_class_labels_label (fun s => s.take 1) ["b", "a"] f = k) ∧
     (["b", "a"] : List String).length =
       ((["a/x", "a/y", "b/z"] : List String).map fun s => s.take 1).dedup.length) :=
  ⟨⟨by decide, by decide, by decide⟩,
   claim_C7_class_labels ["a/x", "a/y", "b/z"] ["b", "a"] (fun s => s.take 1)
     (by decide) (by decide) (by decide)⟩

/-! ## `export_gltf.run`: pre-existing-output assertions before any save

```python
def run(cfg):
    objects_to_save = [...]
    save_paths = [...]
    for o, p in zip(objects_to_save, save_paths):
        assert not os.path.exists(p + save_ext), f"Cannot run: {p}{save_ext} already exists."
    for o, p in zip(objects_to_save, save_paths):
        save_object(o, p, cfg.export_format)

def save_object(obj, save_path, export_format):
    assert not os.path.isfile(save_path), f"Cannot overwrite the file: {save_path}"
    ...
    bpy.ops.export_scene.gltf(filepath=save_path, ...)
```

The filesystem is modelled as the list `fs` of existing paths; a successful
export of `p` creates the file `p ++ ext`.  An aborting run is an
`Except.error` carrying the message and the filesystem state at abort time.
-/

/-- The first loop of `export_gltf.run`: assert, for every save path in
order, that the target `p + save_ext` does not already exist. -/
def export_precheck (fs : List String) (save_paths : List String)
    (ext : String) : Except String Unit :=
  match save_paths with
  | [] => .ok ()
  | p :: rest =>
    if (p ++ ext) ∈ fs then
      .error ("Cannot run: " ++ p ++ ext ++ " already exists.")
    else export_precheck fs rest ext

/-- `export_gltf.save_object`: asserts the save path is not an existing file,
then exports (creating `save_path ++ ext`). -/
def save_object (fs : List String) (p ext : String) :
    Except String (List String) :=
  if p ∈ fs then .error ("Cannot overwrite the file: " ++ p)
  else .ok (fs ++ [p ++ ext])

/-- The second loop of `export_gltf.run`: save every object in order; on an
assertion failure the run aborts with the filesystem as it stands. -/
def export_save_loop (ext : String) :
    List String → List String → Except (String × List String) (List String)
  | fs, [] => .ok fs
  | fs, p :: rest =>
    match save_object fs p ext with
    | .error e => .error (e, fs)
    | .ok fs' => export_save_loop ext fs' rest

/-- `export_gltf.run`: the precheck loop over all objects runs to completion
before the first `save_object` call. -/
def export_run (fs : List String) (save_paths : List String) (ext : String) :
    Except (String × List String) (List String) :=
  match export_precheck fs save_paths ext with
  | .error e => .error (e, fs)
  | .ok () => export_save_loop ext fs save_paths

lemma export_precheck_error (fs : List String) (ext : String) :
    ∀ save_paths : List String, (∃ p ∈ save_paths, (p ++ ext) ∈ fs) →
      ∃ msg, export_precheck fs save_paths ext = .error msg := by
  intro paths
  induction paths with
  | nil =>
    rintro ⟨p, hp, -⟩
    exact absurd hp (List.not_mem_nil p)
  | cons q rest ih =>
    intro h
    by_cases hq : (q ++ ext) ∈ fs
    · refine ⟨"Cannot run: " ++ q ++ ext ++ " already exists.", ?_⟩
      simp [export_precheck, hq]
    · obtain ⟨p, hp, hin⟩ := h
      rcases List.mem_cons.mp hp with rfl | hprest
      · exact absurd hin hq
      · obtain ⟨msg, hmsg⟩ := ih ⟨p, hprest, hin⟩
        exact ⟨msg, by simp [export_precheck, hq, hmsg]⟩

/-- **C8.** If any target path (save path plus extension) already exists, the
glTF export run aborts during the precheck loop — before any `save_object`
call — with the filesystem unchanged (the aborted state equals the initial
`fs`): no object is exported at all. -/
theorem claim_C8_precheck_before_save (fs save_paths : List String)
    (ext : String) (h : ∃ p ∈ save_paths, (p ++ ext) ∈ fs) :
    ∃ msg, export_run fs save_paths ext = .error (msg, fs) := by
  obtain ⟨msg, hmsg⟩ := export_precheck_error fs ext save_paths h
  refine ⟨msg, ?_⟩
  unfold export_run
  rw [hmsg]

/-- Witness for C8: exporting object `a` when `a.glb` already exists. -/
theorem claim_C8_witness :
    (∃ p ∈ (["a"] : List String), (p ++ ".glb") ∈ (["a.glb"] : List String)) ∧
    ∃ msg, export_run ["a.glb"] ["a"] ".glb" = .error (msg, ["a.glb"]) :=
  ⟨by decide, claim_C8_precheck_before_save ["a.glb"] ["a"] ".glb" (by decide)⟩

/-! ## `filter_models.compute_opacities`: parallel fan-out

```python
def compute_opacities(src_path):
    model_dirs = [...]
    storage = manager.list([0.0] * len(model_dirs))
    for i, m in enumerate(model_dirs):
        jobs.append(delayed(compute_average_opacity)(model_dir=m, storage=storage, index=i))
    Parallel(n_jobs=32)(jobs)
    return {m: storage[i] for i, m in enumerate(model_dirs)}

def compute_average_opacity(model_dir, storage, index):
    ...
    storage[index] = avg_opacity
```
-/

/-- `compute_average_opacity(model_dir, storage, index)`: computes the mean
alpha of the model's renders (abstracted by the oracle `opacity`, since the
PNG images are external inputs) and writes it into slot `index` of the shared
`storage` array; its only effect on `storage` is `storage[index] = value`. -/
noncomputable def compute_average_opacity (opacity : String → ℝ)
    (model_dir : String) (storage : List ℝ) (index : ℕ) : List ℝ :=
  storage.set index (opacity model_dir)

/-- Runs the opacity tasks in the completion order `order` (each entry is a
task id, i.e. an index into `models`), threading the shared storage. -/
noncomputable def run_opacity_tasks (opacity : String → ℝ)
    (models : List String) : List ℕ → List ℝ → List ℝ
  | [], storage => storage
  | i :: rest, storage =>
    run_opacity_tasks opacity models rest
      (compute_average_opacity opacity (models.getD i "") storage i)

/-- `compute_opacities`: preallocates one storage slot per model directory,
hands task `i` the model `models[i]` and the distinct slot `i`, runs the
tasks in an arbitrary completion order `order`, and returns
`{m: storage[i] for i, m in enumerate(model_dirs)}`. -/
noncomputable def compute_opacities (opacity : String → ℝ)
    (models : List String) (order : List ℕ) : List (String × ℝ) :=
  let storage := run_opacity_tasks opacity models order
    (List.replicate models.length 0)
  (List.range models.length).map fun i => (models.getD i "", storage.getD i 0)

lemma run_opacity_tasks_getElem (opacity : String → ℝ) (models : List String)
    (order : List ℕ) (storage : List ℝ) (j : ℕ) :
    (run_opacity_tasks opacity models order storage)[j]? =
      if j ∈ order ∧ j < storage.length then some (opacity (models.getD j ""))
      else storage[j]? := by
  induction order generalizing storage with
  | nil => simp [run_opacity_tasks]
  | cons i rest ih =>
    rw [run_opacity_tasks, ih]
    unfold compute_average_opacity
    rw [List.length_set]
    by_cases hjr : j ∈ rest
    · by_cases hlen : j < storage.length
      · rw [if_pos ⟨hjr, hlen⟩, if_pos ⟨List.mem_cons_of_mem i hjr, hlen⟩]
      · rw [if_neg (by tauto), if_neg (by tauto)]
        have hle : storage.length ≤ j := Nat.le_of_not_lt hlen
        rw [List.getElem?_eq_none (by rw [List.length_set]; exact hle),
          List.getElem?_eq_none hle]
    · by_cases hji : j = i
      · subst hji
        rw [if_neg (by tauto)]
        by_cases hlen : j < storage.length
        · rw [if_pos ⟨List.mem_cons_self j rest, hlen⟩]
          exact List.getElem?_set_self hlen
        · rw [if_neg (by tauto)]
          have hle : storage.length ≤ j := Nat.le_of_not_lt hlen
          rw [List.getElem?_eq_none (by rw [List.length_set]; exact hle),
            List.getElem?_eq_none hle]
      · rw [if_neg (by tauto),
          if_neg (by rw [List.mem_cons]; tauto)]
        exact List.getElem?_set_ne fun hc => hji hc.symm

/-- **C9.** `compute_average_opacity` writes only `storage[index]`, leaving
every other entry unchanged; and since `compute_opacities` preallocates one
slot per model directory and gives each task a distinct index, the dict it
returns maps each model directory to its own average opacity, the same for
every completion order of the parallel tasks. -/
theorem claim_C9_parallel_opacity (opacity : String → ℝ)
    (models : List String) :
    (∀ (m : String) (storage : List ℝ) (index j : ℕ), j ≠ index →
      (compute_average_opacity opacity m storage index)[j]? = storage[j]?) ∧
    ∀ order : List ℕ, order.Perm (List.range models.length) →
      compute_opacities opacity models order =
        (List.range models.length).map fun i =>
          (models.getD i "", opacity (models.getD i "")) := by
  constructor
  · intro m storage index j hne
    unfold compute_average_opacity
    exact List.getElem?_set_ne fun hc => hne hc.symm
  · intro order hperm
    unfold compute_opacities
    refine List.map_congr_left fun i hi => ?_
    have hin : i < models.length := List.mem_range.mp hi
    have hmem : i ∈ order := (hperm.mem_iff).mpr (List.mem_range.mpr hin)
    have hget : (run_opacity_tasks opacity models order
        (List.replicate models.length 0))[i]? =
        some (opacity (models.getD i "")) := by
      rw [run_opacity_tasks_getElem]
      rw [if_pos ⟨hmem, by rw [List.length_replicate]; exact hin⟩]
    simp only [List.getD_eq_getElem?_getD] at hget ⊢
    rw [hget, Option.getD_some]

/-- Witness for C9: two models, tasks completing in the order `[1, 0]`. -/
theorem claim_C9_witness :
    ((0 : ℕ) ≠ 1 ∧
     (compute_average_opacity (fun _ => (0 : ℝ)) "a" [0.5, 0.5] 1)[0]? =
       ([0.5, 0.5] : List ℝ)[0]?) ∧
    (([1, 0] : List ℕ).Perm (List.range (["a", "b"] : List String).length) ∧
     compute_opacities (fun _ => (0 : ℝ)) ["a", "b"] [1, 0] =
       (List.range (["a", "b"] : List String).length).map fun i =>
         ((["a", "b"] : List String).getD i "",
          (fun _ : String => (0 : ℝ)) ((["a", "b"] : List String).getD i ""))) :=
  ⟨⟨by decide,
    (claim_C9_parallel_opacity (fun _ => (0 : ℝ)) ["a", "b"]).1 "a" [0.5, 0.5] 1 0
      (by decide)⟩,
   ⟨by decide,
    (claim_C9_parallel_opacity (fun _ => (0 : ℝ)) ["a", "b"]).2 [1, 0] (by decide)⟩⟩

/-! ## `prepare_for_training`, Step 3: the `if zip:` guard

```python
def prepare_for_training(src_dir, dst_dir, use_roll_angles=False, save_as_zip=False, num_jobs=8):
    ...
    if zip:
        print('Creating a zip archive (without compression)...')
        store_to_zip(dst_dir, delete_original=True)
```

`zip` here is the Python *builtin function* (the parameter is named
`save_as_zip`), and a function object is always truthy.
-/

/-- The on-disk state of the destination directory after
`prepare_for_training`. -/
structure PrepOutState where
  dir_exists : Bool
  zip_exists : Bool
deriving DecidableEq

/-- `utils.store_to_zip`: archives the directory into a zip and, when
`delete_original`, removes the directory. -/
def store_to_zip (delete_original : Bool) (st : PrepOutState) : PrepOutState :=
  { dir_exists := if delete_original then false else st.dir_exists,
    zip_exists := true }

/-- The truth value of Python's `if zip:` in `prepare_for_training`: it tests
the builtin function object `zip`, not the `save_as_zip` parameter, and a
function object is always truthy. -/
def zip_guard_truthy : Bool := true

/-- Step 3 of `prepare_for_training`: compress (with deletion of the
original) when the guard holds. -/
def prepare_compress_step (save_as_zip : Bool) (st : PrepOutState) :
    PrepOutState :=
  if zip_guard_truthy then store_to_zip true st else st

/-- **C10.** For every value of `save_as_zip`, `prepare_for_training` runs the
final compression step — archiving `dst_dir` into a zip and deleting the
original directory — because `if zip:` tests the always-truthy builtin `zip`;
the `save_as_zip` parameter has no effect on the outcome. -/
theorem claim_C10_zip_guard (save_as_zip : Bool) (st : PrepOutState) :
    prepare_compress_step save_as_zip st = store_to_zip true st ∧
    (prepare_compress_step save_as_zip st).zip_exists = true ∧
    (prepare_compress_step save_as_zip st).dir_exists = false ∧
    prepare_compress_step save_as_zip st =
      prepare_compress_step (!save_as_zip) st :=
  ⟨rfl, rfl, rfl, rfl⟩

end Megascans
